import Mathlib

/-!
Verification of the trust-dns fragment: the NSEC3 owner-name hash
(`src/rr/dnssec/nsec3.rs`) and the asynchronous UDP client transport
(`src/udp/udp_client_stream.rs`).

Shallow embedding conventions:
* byte buffers (`Vec<u8>`, `&[u8]`) are `List Nat`;
* machine integers (`u8`, `u16`) are `Nat`, with explicit range facts where
  the range matters;
* the SHA-1 primitive and the canonical wire encoder for domain names live in
  external crates (openssl, the serialize module), so they appear as abstract
  function parameters `H` and `emitCanonical`;
* the futures/tokio primitives (`Fuse<Receiver<_>>`, non-blocking socket
  calls, `Poll`) are modelled by explicit state passing: each `poll` takes a
  state and returns an outcome together with the successor state.
-/

/-! ## NSEC3 (`src/rr/dnssec/nsec3.rs`) -/

/-- Byte buffers (`Vec<u8>` / `&[u8]`). -/
abbrev Bytes := List Nat

/-- `enum Nsec3HashAlgorithm { SHA1 }` from `nsec3.rs`. -/
inductive Nsec3HashAlgorithm where
  | SHA1
deriving DecidableEq, Repr

/-- `DecodeErrorKind` as far as `nsec3.rs` uses it:
`UnknownAlgorithmTypeValue(value)`. -/
inductive DecodeErrorKind where
  | unknownAlgorithmTypeValue (value : Nat)
deriving DecidableEq, Repr

/-- `DecodeResult<T> = Result<T, DecodeError>`. -/
abbrev DecodeResult (α : Type) := Except DecodeErrorKind α

/-- `Nsec3HashAlgorithm::from_u8`: `1 => Ok(SHA1)`, everything else
`Err(UnknownAlgorithmTypeValue(value))`. -/
def Nsec3HashAlgorithm.from_u8 (value : Nat) : DecodeResult Nsec3HashAlgorithm :=
  match value with
  | 1 => .ok .SHA1
  | _ => .error (.unknownAlgorithmTypeValue value)

/-- `impl From<Nsec3HashAlgorithm> for u8`: `SHA1 => 1`. -/
def Nsec3HashAlgorithm.to_u8 (a : Nsec3HashAlgorithm) : Nat :=
  match a with
  | .SHA1 => 1

/-- A domain name, as a list of labels (each a list of bytes).  Its canonical
wire encoding is produced by the external `BinEncoder`, which we keep
abstract. -/
structure Name where
  labels : List Bytes
deriving DecidableEq

/-- `Nsec3HashAlgorithm::sha1_recursive_hash(salt, bytes, iterations)`.
A fresh hasher is fed either the recursive digest (when `iterations > 0`)
or `bytes` (when `iterations == 0`), then `salt`, and finished; so the
result is `H(prev ++ salt)`.  `H` abstracts the external openssl SHA-1. -/
def sha1_recursive_hash (H : Bytes → Bytes) (salt : Bytes) (bytes : Bytes) :
    Nat → Bytes
  | 0 => H (bytes ++ salt)
  | iterations + 1 => H (sha1_recursive_hash H salt bytes iterations ++ salt)

/-- `Nsec3HashAlgorithm::hash(salt, name, iterations)`: encode the name with
the canonical-names encoder (abstract `emitCanonical`), then run
`sha1_recursive_hash`. -/
def Nsec3HashAlgorithm.hash (H : Bytes → Bytes) (emitCanonical : Name → Bytes)
    (a : Nsec3HashAlgorithm) (salt : Bytes) (name : Name) (iterations : Nat) :
    Bytes :=
  match a with
  | .SHA1 => sha1_recursive_hash H salt (emitCanonical name) iterations

/-- The digest chain exactly as the spec words it:
`D0 = H(ownerNameWire || salt)`, `Dk = H(D(k-1) || salt)`. -/
def specDigestChain (H : Bytes → Bytes) (ownerNameWire salt : Bytes) :
    Nat → Bytes
  | 0 => H (ownerNameWire ++ salt)
  | k + 1 => H (specDigestChain H ownerNameWire salt k ++ salt)

/-- **C1.** For every salt, owner name and iteration count `k`, the NSEC3
hash function returns `D(k)` of the digest chain of the spec, where
`D0 = H(canonicalWireEncodingOfName ++ salt)` and
`D(i) = H(D(i-1) ++ salt)`; `H` abstracts SHA-1 (an external primitive),
and the statement holds for every `H`, in particular for SHA-1. -/
theorem nsec3_hash_eq_spec_digest_chain (H : Bytes → Bytes)
    (emitCanonical : Name → Bytes) (salt : Bytes) (name : Name) (k : Nat) :
    Nsec3HashAlgorithm.hash H emitCanonical .SHA1 salt name k =
      specDigestChain H (emitCanonical name) salt k := by
  induction k with
  | zero => rfl
  | succ k ih =>
      simp only [Nsec3HashAlgorithm.hash, sha1_recursive_hash, specDigestChain]
      simp only [Nsec3HashAlgorithm.hash] at ih
      rw [ih]

/-- **C9.** Decoding an NSEC3 hash algorithm code yields SHA-1 exactly for
the value 1 and an unknown-algorithm decode error for every other byte
value. -/
theorem from_u8_sha1_or_unknown (value : Nat) :
    Nsec3HashAlgorithm.from_u8 value =
      if value = 1 then .ok .SHA1
      else .error (.unknownAlgorithmTypeValue value) := by
  match value with
  | 0 => rfl
  | 1 => rfl
  | n + 2 => rfl

/-- **C10.** Round trip: decoding the wire code of any algorithm value
yields that value back, `from_u8 (to_u8 a) = Ok a`. -/
theorem from_u8_to_u8_roundtrip (a : Nsec3HashAlgorithm) :
    Nsec3HashAlgorithm.from_u8 (Nsec3HashAlgorithm.to_u8 a) = .ok a := by
  cases a
  rfl

/-! ## UDP client transport (`src/udp/udp_client_stream.rs`) -/

/-- A socket address: an abstract host identifier plus a port. -/
structure SocketAddr where
  ip : Nat
  port : Nat
deriving DecidableEq, Repr

/-- `futures::Async`: `Ready(a)` or `NotReady`. -/
inductive Async (α : Type) where
  | notReady
  | ready (a : α)
deriving DecidableEq, Repr

/-- The `Fuse<Receiver<Vec<u8>>>` held by the stream, modelled by its
observable state: the FIFO of buffered messages, whether every `Sender`
handle has been dropped, and the fuse flag recording that the underlying
receiver has already yielded `None`. -/
structure FusedReceiver where
  queue : List Bytes
  sendersDropped : Bool
  done : Bool
deriving DecidableEq, Repr

/-- One non-blocking poll of the fused receiver, per the semantics of
futures 0.1 `Fuse` and the tokio-core channel: after the fuse is done it
keeps returning `Ready(None)`; otherwise a buffered message is dequeued;
an empty queue yields `Ready(None)` (setting the fuse flag) once all
senders are dropped, and `NotReady` while senders remain. -/
def FusedReceiver.poll (r : FusedReceiver) : Async (Option Bytes) × FusedReceiver :=
  if r.done then (.ready none, r)
  else
    match r.queue with
    | b :: rest => (.ready (some b), { r with queue := rest })
    | [] =>
        if r.sendersDropped then (.ready none, { r with done := true })
        else (.notReady, r)

/-- `Fuse::is_done`: whether the underlying stream has returned `None`. -/
def FusedReceiver.is_done (r : FusedReceiver) : Bool := r.done

/-- The `tokio_core::UdpSocket`, modelled by its observable state: whether a
non-blocking write would currently succeed, the datagrams written so far,
and the FIFO of datagrams available to `recv_from` (payload and source
address). -/
structure UdpSocketModel where
  writable : Bool
  sent : List (Bytes × SocketAddr)
  inbound : List (Bytes × SocketAddr)
deriving DecidableEq, Repr

/-- `struct UdpClientStream` (the consumer side; the cloned
`message_sender` producer handle is reflected in
`outbound_messages.sendersDropped`). -/
structure UdpClientStream where
  name_server : SocketAddr
  socket : UdpSocketModel
  outbound_messages : FusedReceiver
  outbound_opt : Option Bytes
deriving DecidableEq, Repr

/-- Outcome of one `poll` of the stream: `Ok(NotReady)`,
`Ok(Ready(Some(bytes)))` or `Ok(Ready(None))` (the code constructs no
`Err` itself; socket errors other than would-block are outside this
model). -/
inductive StreamPoll where
  | notReady
  | item (data : Bytes)
  | eos
deriving DecidableEq, Repr

/-- Result of one `poll` invocation: the returned value, the successor
state, and the advisory mismatch log entry (`debug!` of source address vs
`name_server`), if any, emitted during the poll. -/
structure PollStep where
  result : StreamPoll
  state : UdpClientStream
  mismatchLogged : Option (SocketAddr × SocketAddr)
deriving DecidableEq, Repr

/-- A successful dequeue strictly shrinks the buffered queue (used for
termination of the send loop). -/
theorem FusedReceiver.poll_dequeue_length (r r2 : FusedReceiver) (b : Bytes)
    (h : r.poll = (.ready (some b), r2)) : r2.queue.length < r.queue.length := by
  rcases r with ⟨queue, sd, done⟩
  cases done
  · cases queue
    · cases sd <;> simp [FusedReceiver.poll] at h
    · simp [FusedReceiver.poll] at h
      obtain ⟨h1, h2⟩ := h
      rw [h2.symm]
      simp
  · simp [FusedReceiver.poll] at h

/-- The send `loop` at the top of `UdpClientStream::poll`.  Each pass:
if `outbound_opt` holds a buffer, `try_nb!(send_to(..))` either sends it
(socket writable) or returns `NotReady` with the state untouched; then
`outbound_opt = None`; then the receiver is polled: on `Ready(Some(buffer))`
with `poll_write()` ready the buffer is stored in `outbound_opt` and the
loop repeats, with `poll_write()` not ready the poll returns `NotReady`
(the dequeued buffer is dropped on the floor); on `NotReady` or
`Ready(None)` the loop breaks.  `.inl s` is an early `return NotReady`
with state `s`; `.inr s` is `break` with state `s`. -/
def UdpClientStream.pollLoop (s : UdpClientStream) : Sum UdpClientStream UdpClientStream :=
  match hopt : s.outbound_opt with
  | some buffer =>
      if s.socket.writable then
        UdpClientStream.pollLoop
          { s with
            socket := { s.socket with sent := s.socket.sent ++ [(buffer, s.name_server)] },
            outbound_opt := none }
      else
        .inl s
  | none =>
      match hq : s.outbound_messages.poll with
      | (.ready (some buffer), r) =>
          if s.socket.writable then
            UdpClientStream.pollLoop
              { s with outbound_messages := r, outbound_opt := some buffer }
          else
            .inl { s with outbound_messages := r }
      | (.notReady, r) => .inr { s with outbound_messages := r }
      | (.ready none, r) => .inr { s with outbound_messages := r }
termination_by 2 * s.outbound_messages.queue.length +
  (match s.outbound_opt with | some _ => 1 | none => 0)
decreasing_by
  · simp only [hopt]
    omega
  · simp only [hopt]
    have hlen := FusedReceiver.poll_dequeue_length _ _ _ hq
    omega

/-- `UdpClientStream::poll`: run the send loop; an early return yields
`NotReady`; after `break`, return end-of-stream if the fused receiver
`is_done()`; otherwise one non-blocking `recv_from` into a 2048-byte
buffer: empty yields `NotReady`, else the datagram is taken, its source
compared against `name_server` (mismatch logged only), and its first
`len` bytes yielded. -/
def UdpClientStream.poll (s : UdpClientStream) : PollStep :=
  match s.pollLoop with
  | .inl s1 => ⟨.notReady, s1, none⟩
  | .inr s1 =>
      if s1.outbound_messages.is_done then
        ⟨.eos, s1, none⟩
      else
        match s1.socket.inbound with
        | [] => ⟨.notReady, s1, none⟩
        | (data, src) :: rest =>
            let s2 := { s1 with socket := { s1.socket with inbound := rest } }
            if src = s1.name_server then
              ⟨.item (data.take 2048), s2, none⟩
            else
              ⟨.item (data.take 2048), s2, some (src, s1.name_server)⟩

/-- Well-formedness of the fused receiver state: the fuse flag is only set
after the channel reported closure, i.e. with all senders dropped and the
queue empty. -/
def FusedReceiver.WF (r : FusedReceiver) : Prop :=
  r.done = true → r.sendersDropped = true ∧ r.queue = []

theorem FusedReceiver.poll_sendersDropped (r : FusedReceiver) :
    ((r.poll).2).sendersDropped = r.sendersDropped := by
  rcases r with ⟨queue, sd, done⟩
  cases done
  · rcases queue with _ | ⟨x, rest⟩
    · cases sd <;> simp [FusedReceiver.poll]
    · simp [FusedReceiver.poll]
  · simp [FusedReceiver.poll]

theorem FusedReceiver.poll_WF (r : FusedReceiver) (hwf : r.WF) :
    ((r.poll).2).WF := by
  rcases r with ⟨queue, sd, done⟩
  cases done
  · rcases queue with _ | ⟨x, rest⟩
    · cases sd <;> simp [FusedReceiver.poll, FusedReceiver.WF]
    · simp [FusedReceiver.poll, FusedReceiver.WF]
  · simpa [FusedReceiver.poll] using hwf

theorem UdpClientStream.pollLoop_flush (s : UdpClientStream) (b : Bytes)
    (hopt : s.outbound_opt = some b) (hw : s.socket.writable = true) :
    s.pollLoop = UdpClientStream.pollLoop
      { s with
        socket := { s.socket with sent := s.socket.sent ++ [(b, s.name_server)] },
        outbound_opt := none } := by
  rw [UdpClientStream.pollLoop.eq_def]
  split <;> simp_all

theorem UdpClientStream.pollLoop_flush_blocked (s : UdpClientStream) (b : Bytes)
    (hopt : s.outbound_opt = some b) (hw : s.socket.writable = false) :
    s.pollLoop = .inl s := by
  rw [UdpClientStream.pollLoop.eq_def]
  split <;> simp_all

theorem UdpClientStream.pollLoop_dequeue (s : UdpClientStream) (b : Bytes)
    (r : FusedReceiver) (hopt : s.outbound_opt = none)
    (hq : s.outbound_messages.poll = (.ready (some b), r))
    (hw : s.socket.writable = true) :
    s.pollLoop = UdpClientStream.pollLoop
      { s with outbound_messages := r, outbound_opt := some b } := by
  rw [UdpClientStream.pollLoop.eq_def]
  split <;> simp_all
  split <;> simp_all

theorem UdpClientStream.pollLoop_dequeue_blocked (s : UdpClientStream) (b : Bytes)
    (r : FusedReceiver) (hopt : s.outbound_opt = none)
    (hq : s.outbound_messages.poll = (.ready (some b), r))
    (hw : s.socket.writable = false) :
    s.pollLoop = .inl { s with outbound_messages := r } := by
  rw [UdpClientStream.pollLoop.eq_def]
  split <;> simp_all
  split <;> simp_all

theorem UdpClientStream.pollLoop_break_pending (s : UdpClientStream)
    (r : FusedReceiver) (hopt : s.outbound_opt = none)
    (hq : s.outbound_messages.poll = (.notReady, r)) :
    s.pollLoop = .inr { s with outbound_messages := r } := by
  rw [UdpClientStream.pollLoop.eq_def]
  split <;> simp_all
  split <;> simp_all

theorem UdpClientStream.pollLoop_break_closed (s : UdpClientStream)
    (r : FusedReceiver) (hopt : s.outbound_opt = none)
    (hq : s.outbound_messages.poll = (.ready none, r)) :
    s.pollLoop = .inr { s with outbound_messages := r } := by
  rw [UdpClientStream.pollLoop.eq_def]
  split <;> simp_all
  split <;> simp_all

/-- Properties of the state at which the send loop breaks: the pending-send
slot is empty, the inbound side and destination are untouched, the
producer-side dropped flag is unchanged, and well-formedness of the
receiver state is preserved. -/
theorem UdpClientStream.pollLoop_inr_props (s : UdpClientStream) :
    ∀ s2, s.pollLoop = .inr s2 →
      s2.name_server = s.name_server ∧
      s2.outbound_opt = none ∧
      s2.socket.inbound = s.socket.inbound ∧
      s2.outbound_messages.sendersDropped = s.outbound_messages.sendersDropped ∧
      (s.outbound_messages.WF → s2.outbound_messages.WF) := by
  induction s using UdpClientStream.pollLoop.induct with
  | case1 x buffer hopt hw ih =>
      intro s2 h
      rw [UdpClientStream.pollLoop_flush x buffer hopt hw] at h
      exact ih s2 h
  | case2 x buffer hopt hw =>
      intro s2 h
      rw [UdpClientStream.pollLoop_flush_blocked x buffer hopt (by simpa using hw)] at h
      cases h
  | case3 x hopt buffer r hq hw ih =>
      intro s2 h
      rw [UdpClientStream.pollLoop_dequeue x buffer r hopt hq hw] at h
      have hprops := ih s2 h
      have hsd := FusedReceiver.poll_sendersDropped x.outbound_messages
      rw [hq] at hsd
      have hwf := FusedReceiver.poll_WF x.outbound_messages
      rw [hq] at hwf
      refine ⟨hprops.1, hprops.2.1, hprops.2.2.1, ?_, ?_⟩
      · rw [hprops.2.2.2.1]
        exact hsd
      · intro hx
        exact hprops.2.2.2.2 (hwf hx)
  | case4 x hopt buffer r hq hw =>
      intro s2 h
      rw [UdpClientStream.pollLoop_dequeue_blocked x buffer r hopt hq (by simpa using hw)] at h
      cases h
  | case5 x hopt r hq =>
      intro s2 h
      rw [UdpClientStream.pollLoop_break_pending x r hopt hq] at h
      have hsd := FusedReceiver.poll_sendersDropped x.outbound_messages
      rw [hq] at hsd
      have hwf := FusedReceiver.poll_WF x.outbound_messages
      rw [hq] at hwf
      cases h
      exact ⟨rfl, hopt, rfl, hsd, fun hx => hwf hx⟩
  | case6 x hopt r hq =>
      intro s2 h
      rw [UdpClientStream.pollLoop_break_closed x r hopt hq] at h
      have hsd := FusedReceiver.poll_sendersDropped x.outbound_messages
      rw [hq] at hsd
      have hwf := FusedReceiver.poll_WF x.outbound_messages
      rw [hq] at hwf
      cases h
      exact ⟨rfl, hopt, rfl, hsd, fun hx => hwf hx⟩

/-- Polling the fused receiver with every sender dropped and nothing
buffered reports closure (`Ready(None)`) and latches the fuse flag. -/
theorem FusedReceiver.poll_closed (r : FusedReceiver) (hq : r.queue = [])
    (hsd : r.sendersDropped = true) :
    r.poll = (.ready none, { r with done := true }) := by
  rcases r with ⟨queue, sd, done⟩
  simp only at hq hsd
  subst hq hsd
  cases done <;> simp [FusedReceiver.poll]

/-- `poll` after an early return from the send loop. -/
theorem UdpClientStream.poll_of_inl (s s1 : UdpClientStream)
    (hp : s.pollLoop = .inl s1) : s.poll = ⟨.notReady, s1, none⟩ := by
  unfold UdpClientStream.poll
  rw [hp]

/-- `poll` when the send loop breaks with the fused receiver done:
end-of-stream. -/
theorem UdpClientStream.poll_of_inr_done (s s1 : UdpClientStream)
    (hp : s.pollLoop = .inr s1) (hd : s1.outbound_messages.is_done = true) :
    s.poll = ⟨.eos, s1, none⟩ := by
  unfold UdpClientStream.poll
  rw [hp]
  simp [hd]

/-- `poll` when the send loop breaks, the receiver is not done and nothing
is readable: `NotReady`. -/
theorem UdpClientStream.poll_of_inr_empty (s s1 : UdpClientStream)
    (hp : s.pollLoop = .inr s1) (hd : s1.outbound_messages.is_done = false)
    (hin : s1.socket.inbound = []) : s.poll = ⟨.notReady, s1, none⟩ := by
  unfold UdpClientStream.poll
  rw [hp]
  simp [hd, hin]

/-- `poll` when the send loop breaks, the receiver is not done and a
datagram is readable: the datagram is consumed and yielded, with the
source-address comparison deciding only the advisory log entry. -/
theorem UdpClientStream.poll_of_inr_recv (s s1 : UdpClientStream)
    (data : Bytes) (src : SocketAddr) (rest : List (Bytes × SocketAddr))
    (hp : s.pollLoop = .inr s1) (hd : s1.outbound_messages.is_done = false)
    (hin : s1.socket.inbound = (data, src) :: rest) :
    s.poll = ⟨.item (data.take 2048),
              { s1 with socket := { s1.socket with inbound := rest } },
              if src = s1.name_server then none else some (src, s1.name_server)⟩ := by
  unfold UdpClientStream.poll
  rw [hp]
  have hd2 : s1.outbound_messages.done = false := hd
  simp only [hd2, FusedReceiver.is_done, Bool.false_eq_true, if_false, hin]
  by_cases hsrc : src = s1.name_server <;> simp [hsrc, hd2]

/-- **C2.** A poll returns end-of-sequence only with every sender dropped
and all buffered messages gone (empty queue and empty pending slot at the
returned state), and conversely a poll from a state where all senders are
dropped and every buffered message has been sent returns end-of-sequence
rather than hanging. -/
theorem poll_eos_iff_closed_and_drained (s : UdpClientStream)
    (hwf : s.outbound_messages.WF) :
    ((s.poll).result = .eos →
      (s.poll).state.outbound_messages.sendersDropped = true ∧
      (s.poll).state.outbound_messages.queue = [] ∧
      (s.poll).state.outbound_opt = none) ∧
    ((s.outbound_messages.sendersDropped = true ∧ s.outbound_messages.queue = [] ∧
        s.outbound_opt = none) →
      (s.poll).result = .eos) := by
  constructor
  · intro hres
    rcases hp : s.pollLoop with s1 | s1
    · rw [UdpClientStream.poll_of_inl s s1 hp] at hres
      simp at hres
    · by_cases hdone : s1.outbound_messages.is_done = true
      · have hstep := UdpClientStream.poll_of_inr_done s s1 hp hdone
        have hprops := UdpClientStream.pollLoop_inr_props s s1 hp
        have hwf1 : s1.outbound_messages.WF := hprops.2.2.2.2 hwf
        have hd : s1.outbound_messages.done = true := by
          simpa [FusedReceiver.is_done] using hdone
        obtain ⟨hsd, hq⟩ := hwf1 hd
        rw [hstep]
        exact ⟨hsd, hq, hprops.2.1⟩
      · have hdone2 : s1.outbound_messages.is_done = false := by
          simpa using hdone
        rcases hin : s1.socket.inbound with _ | ⟨⟨data, src⟩, rest⟩
        · rw [UdpClientStream.poll_of_inr_empty s s1 hp hdone2 hin] at hres
          simp at hres
        · rw [UdpClientStream.poll_of_inr_recv s s1 data src rest hp hdone2 hin] at hres
          simp at hres
  · rintro ⟨hsd, hq, hopt⟩
    have hc := FusedReceiver.poll_closed s.outbound_messages hq hsd
    have hbreak := UdpClientStream.pollLoop_break_closed s _ hopt hc
    have hstep := UdpClientStream.poll_of_inr_done s _ hbreak (by
      simp [FusedReceiver.is_done])
    rw [hstep]

/-- **C4.** With a buffer in the pending-send slot and the socket not
writable, `poll` returns `NotReady` and leaves the whole state, in
particular that exact buffer in the slot, unchanged. -/
theorem poll_pending_not_writable_retries (s : UdpClientStream) (b : Bytes)
    (hopt : s.outbound_opt = some b) (hw : s.socket.writable = false) :
    s.poll = ⟨.notReady, s, none⟩ ∧ (s.poll).state.outbound_opt = some b := by
  have h := UdpClientStream.poll_of_inl s s
    (UdpClientStream.pollLoop_flush_blocked s b hopt hw)
  exact ⟨h, by rw [h]; exact hopt⟩

/-- **C3.** When a buffer is dequeued and the socket is then found not
writable, `poll` returns `NotReady` with the buffer retained nowhere: the
slot stays empty, the queue has lost the buffer, and nothing was sent. -/
theorem poll_dequeued_buffer_lost (s : UdpClientStream) (b : Bytes)
    (rest : List Bytes) (hopt : s.outbound_opt = none)
    (hw : s.socket.writable = false)
    (hq : s.outbound_messages.queue = b :: rest)
    (hdone : s.outbound_messages.done = false) :
    s.poll = ⟨.notReady,
      { s with outbound_messages := { s.outbound_messages with queue := rest } },
      none⟩ ∧
    (s.poll).state.outbound_opt = none ∧
    (s.poll).state.outbound_messages.queue = rest ∧
    (s.poll).state.socket.sent = s.socket.sent := by
  have hpoll : s.outbound_messages.poll =
      (.ready (some b), { s.outbound_messages with queue := rest }) := by
    simp [FusedReceiver.poll, hq, hdone]
  have h := UdpClientStream.poll_of_inl s _
    (UdpClientStream.pollLoop_dequeue_blocked s b _ hopt hpoll hw)
  refine ⟨h, ?_, ?_, ?_⟩ <;> rw [h]
  exact hopt

/-- **C5.** A datagram received from a source other than the configured
destination is still yielded as a stream item; the mismatch only produces
the advisory log entry. -/
theorem poll_delivers_mismatched_datagram (s s1 : UdpClientStream)
    (data : Bytes) (src : SocketAddr) (rest : List (Bytes × SocketAddr))
    (hloop : s.pollLoop = .inr s1)
    (hdone : s1.outbound_messages.is_done = false)
    (hin : s1.socket.inbound = (data, src) :: rest)
    (hmis : src ≠ s1.name_server) :
    (s.poll).result = .item (data.take 2048) ∧
    (s.poll).mismatchLogged = some (src, s1.name_server) := by
  rw [UdpClientStream.poll_of_inr_recv s s1 data src rest hloop hdone hin]
  simp [hmis]

/-- **C6 (amended).** Every item the stream yields is the received bytes
alone (the first `len` bytes of the 2048-byte receive buffer); the peer
address is not part of the item. -/
theorem poll_item_is_bytes_only (s s1 : UdpClientStream) (data : Bytes)
    (src : SocketAddr) (rest : List (Bytes × SocketAddr))
    (hloop : s.pollLoop = .inr s1)
    (hdone : s1.outbound_messages.is_done = false)
    (hin : s1.socket.inbound = (data, src) :: rest) :
    (s.poll).result = .item (data.take 2048) := by
  rw [UdpClientStream.poll_of_inr_recv s s1 data src rest hloop hdone hin]

theorem poll_eos_iff_closed_and_drained_witness :
    (UdpClientStream.poll ⟨⟨1, 53⟩, ⟨false, [], []⟩, ⟨[], true, false⟩, none⟩).result
      = .eos :=
  (poll_eos_iff_closed_and_drained ⟨⟨1, 53⟩, ⟨false, [], []⟩, ⟨[], true, false⟩, none⟩
    (by intro h; exact absurd h (by decide))).2 ⟨rfl, rfl, rfl⟩

theorem poll_pending_not_writable_retries_witness :
    UdpClientStream.poll ⟨⟨1, 53⟩, ⟨false, [], []⟩, ⟨[], false, false⟩, some [9]⟩ =
      ⟨.notReady, ⟨⟨1, 53⟩, ⟨false, [], []⟩, ⟨[], false, false⟩, some [9]⟩, none⟩ :=
  (poll_pending_not_writable_retries
    ⟨⟨1, 53⟩, ⟨false, [], []⟩, ⟨[], false, false⟩, some [9]⟩ [9] rfl rfl).1

theorem poll_dequeued_buffer_lost_witness :
    UdpClientStream.poll ⟨⟨1, 53⟩, ⟨false, [], []⟩, ⟨[[7]], false, false⟩, none⟩ =
      ⟨.notReady, ⟨⟨1, 53⟩, ⟨false, [], []⟩, ⟨[], false, false⟩, none⟩, none⟩ :=
  (poll_dequeued_buffer_lost ⟨⟨1, 53⟩, ⟨false, [], []⟩, ⟨[[7]], false, false⟩, none⟩
    [7] [] rfl rfl rfl rfl).1

theorem poll_delivers_mismatched_datagram_witness :
    (UdpClientStream.poll
        ⟨⟨1, 53⟩, ⟨false, [], [([5, 6], ⟨2, 53⟩)]⟩, ⟨[], false, false⟩, none⟩).result =
      .item [5, 6] ∧
    (UdpClientStream.poll
        ⟨⟨1, 53⟩, ⟨false, [], [([5, 6], ⟨2, 53⟩)]⟩, ⟨[], false, false⟩, none⟩).mismatchLogged =
      some (⟨2, 53⟩, ⟨1, 53⟩) :=
  poll_delivers_mismatched_datagram
    ⟨⟨1, 53⟩, ⟨false, [], [([5, 6], ⟨2, 53⟩)]⟩, ⟨[], false, false⟩, none⟩
    ⟨⟨1, 53⟩, ⟨false, [], [([5, 6], ⟨2, 53⟩)]⟩, ⟨[], false, false⟩, none⟩
    [5, 6] ⟨2, 53⟩ []
    (UdpClientStream.pollLoop_break_pending _ _ rfl rfl) rfl rfl (by decide)

theorem poll_item_is_bytes_only_witness :
    (UdpClientStream.poll
        ⟨⟨1, 53⟩, ⟨false, [], [([5, 6], ⟨1, 53⟩)]⟩, ⟨[], false, false⟩, none⟩).result =
      .item [5, 6] :=
  poll_item_is_bytes_only
    ⟨⟨1, 53⟩, ⟨false, [], [([5, 6], ⟨1, 53⟩)]⟩, ⟨[], false, false⟩, none⟩
    ⟨⟨1, 53⟩, ⟨false, [], [([5, 6], ⟨1, 53⟩)]⟩, ⟨[], false, false⟩, none⟩
    [5, 6] ⟨1, 53⟩ []
    (UdpClientStream.pollLoop_break_pending _ _ rfl rfl) rfl rfl

/-- **C6 (counterexample).** Two transports that receive byte-identical
datagrams from different source addresses yield identical stream items, so
an item consists of the bytes only and cannot carry the peer address. -/
theorem stream_item_lacks_peer_address :
    (UdpClientStream.poll
        ⟨⟨1, 53⟩, ⟨false, [], [([5], ⟨1, 53⟩)]⟩, ⟨[], false, false⟩, none⟩).result =
      (UdpClientStream.poll
        ⟨⟨1, 53⟩, ⟨false, [], [([5], ⟨2, 53⟩)]⟩, ⟨[], false, false⟩, none⟩).result ∧
    (UdpClientStream.poll
        ⟨⟨1, 53⟩, ⟨false, [], [([5], ⟨1, 53⟩)]⟩, ⟨[], false, false⟩, none⟩).result =
      .item [5] ∧
    (⟨1, 53⟩ : SocketAddr) ≠ (⟨2, 53⟩ : SocketAddr) := by
  have hA := UdpClientStream.poll_of_inr_recv
    ⟨⟨1, 53⟩, ⟨false, [], [([5], ⟨1, 53⟩)]⟩, ⟨[], false, false⟩, none⟩
    ⟨⟨1, 53⟩, ⟨false, [], [([5], ⟨1, 53⟩)]⟩, ⟨[], false, false⟩, none⟩
    [5] ⟨1, 53⟩ []
    (UdpClientStream.pollLoop_break_pending _ _ rfl rfl) rfl rfl
  have hB := UdpClientStream.poll_of_inr_recv
    ⟨⟨1, 53⟩, ⟨false, [], [([5], ⟨2, 53⟩)]⟩, ⟨[], false, false⟩, none⟩
    ⟨⟨1, 53⟩, ⟨false, [], [([5], ⟨2, 53⟩)]⟩, ⟨[], false, false⟩, none⟩
    [5] ⟨2, 53⟩ []
    (UdpClientStream.pollLoop_break_pending _ _ rfl rfl) rfl rfl
  rw [hA, hB]
  exact ⟨rfl, rfl, by decide⟩

/-! ## Ephemeral socket binder (`NextRandomUdpSocket`) -/

/-- Result of one OS `UdpSocket::bind` call: a bound socket (abstracted to
an identifier) or an OS error (abstracted to an error code). -/
inductive BindOutcome where
  | ok (sock : Nat)
  | err (code : Nat)
deriving DecidableEq, Repr

/-- Outcome of `NextRandomUdpSocket::poll`, mirroring
`Poll<Item, io::Error>`: `Ok(NotReady)`, `Ok(Ready(socket))` or `Err(e)`. -/
inductive SocketPoll where
  | notReady
  | ready (sock : Nat)
  | ioErr (code : Nat)
deriving DecidableEq, Repr

/-- The contract of the rand crate function `gen_range(lo, hi)`: a value in `[lo, hi)`
determined by the generator draw (the external RNG is abstracted by the
draw value). -/
def gen_range (lo hi draw : Nat) : Nat := lo + draw % (hi - lo)

/-- The `for attempt in 0..10` loop of `NextRandomUdpSocket::poll`: pick a
random port in `[1025, u16::MAX)`, try to bind it; on success return
`Ready`, on any bind error log and try the next attempt; once attempts are
exhausted return `NotReady`.  Also records the list of ports attempted
(one bind call per entry). -/
def bindLoop (bind : Nat → Nat → BindOutcome) (rng : Nat → Nat) :
    Nat → Nat → SocketPoll × List Nat
  | _, 0 => (.notReady, [])
  | attempt, fuel + 1 =>
      let port := gen_range 1025 65535 (rng attempt)
      match bind attempt port with
      | .ok sock => (.ready sock, [port])
      | .err _ =>
          let res := bindLoop bind rng (attempt + 1) fuel
          (res.1, port :: res.2)

/-- `NextRandomUdpSocket::poll`: at most 10 bind attempts starting from
attempt 0. -/
def nextRandomPoll (bind : Nat → Nat → BindOutcome) (rng : Nat → Nat) :
    SocketPoll × List Nat :=
  bindLoop bind rng 0 10

theorem gen_range_mem (lo hi draw : Nat) (h : lo < hi) :
    lo ≤ gen_range lo hi draw ∧ gen_range lo hi draw < hi := by
  unfold gen_range
  have hm : draw % (hi - lo) < hi - lo := Nat.mod_lt draw (by omega)
  omega

theorem bindLoop_length (bind : Nat → Nat → BindOutcome) (rng : Nat → Nat)
    (attempt fuel : Nat) :
    (bindLoop bind rng attempt fuel).2.length ≤ fuel := by
  induction fuel generalizing attempt with
  | zero => simp [bindLoop]
  | succ n ih =>
      simp only [bindLoop]
      cases hb : bind attempt (gen_range 1025 65535 (rng attempt)) with
      | ok sock => simp
      | err c =>
          simp only [List.length_cons]
          have := ih (attempt + 1)
          omega

theorem bindLoop_ports (bind : Nat → Nat → BindOutcome) (rng : Nat → Nat)
    (attempt fuel : Nat) :
    ∀ p ∈ (bindLoop bind rng attempt fuel).2, 1025 ≤ p ∧ p < 65535 := by
  induction fuel generalizing attempt with
  | zero => intro p hp; simp [bindLoop] at hp
  | succ n ih =>
      intro p hp
      simp only [bindLoop] at hp
      cases hb : bind attempt (gen_range 1025 65535 (rng attempt)) with
      | ok sock =>
          rw [hb] at hp
          simp at hp
          subst hp
          exact gen_range_mem 1025 65535 (rng attempt) (by omega)
      | err c =>
          rw [hb] at hp
          simp at hp
          rcases hp with hp | hp
          · subst hp
            exact gen_range_mem 1025 65535 (rng attempt) (by omega)
          · exact ih (attempt + 1) p hp

theorem bindLoop_all_fail (bind : Nat → Nat → BindOutcome) (rng : Nat → Nat)
    (attempt fuel : Nat) (hfail : ∀ a p, ∃ c, bind a p = .err c) :
    (bindLoop bind rng attempt fuel).1 = .notReady := by
  induction fuel generalizing attempt with
  | zero => rfl
  | succ n ih =>
      simp only [bindLoop]
      obtain ⟨c, hc⟩ := hfail attempt (gen_range 1025 65535 (rng attempt))
      rw [hc]
      exact ih (attempt + 1)

theorem bindLoop_no_hard_error (bind : Nat → Nat → BindOutcome) (rng : Nat → Nat)
    (attempt fuel : Nat) :
    (bindLoop bind rng attempt fuel).1 = .notReady ∨
    ∃ sock, (bindLoop bind rng attempt fuel).1 = .ready sock := by
  induction fuel generalizing attempt with
  | zero => exact Or.inl rfl
  | succ n ih =>
      simp only [bindLoop]
      cases hb : bind attempt (gen_range 1025 65535 (rng attempt)) with
      | ok sock => exact Or.inr ⟨sock, rfl⟩
      | err c => exact ih (attempt + 1)

/-- **C8.** Each invocation of the binder makes at most 10 bind attempts,
every chosen port lies in `[1025, 65535)`, and when all attempts fail the
invocation reports `NotReady` rather than a hard error. -/
theorem next_random_binder_attempts_and_ports (bind : Nat → Nat → BindOutcome)
    (rng : Nat → Nat) :
    (nextRandomPoll bind rng).2.length ≤ 10 ∧
    (∀ p ∈ (nextRandomPoll bind rng).2, 1025 ≤ p ∧ p < 65535) ∧
    ((∀ a p, ∃ c, bind a p = .err c) → (nextRandomPoll bind rng).1 = .notReady) :=
  ⟨bindLoop_length bind rng 0 10, bindLoop_ports bind rng 0 10,
    fun hfail => bindLoop_all_fail bind rng 0 10 hfail⟩

theorem next_random_binder_attempts_and_ports_witness :
    (nextRandomPoll (fun _ _ => .err 0) (fun _ => 0)).1 = .notReady :=
  (next_random_binder_attempts_and_ports (fun _ _ => .err 0) (fun _ => 0)).2.2
    (fun _ _ => ⟨0, rfl⟩)

/-- **C7 (counterexample).** A binder whose every bind attempt fails with a
genuine OS error (code 22, invalid argument) does not propagate that error:
the poll retries all 10 attempts and returns `NotReady`, not `Err`. -/
theorem bind_error_not_propagated :
    (nextRandomPoll (fun _ _ => .err 22) (fun _ => 0)).1 = .notReady ∧
    (nextRandomPoll (fun _ _ => .err 22) (fun _ => 0)).1 ≠ .ioErr 22 ∧
    (nextRandomPoll (fun _ _ => .err 22) (fun _ => 0)).2.length = 10 := by
  refine ⟨rfl, by decide, rfl⟩

/-- **C7 (amended).** The binder never propagates a bind error as a hard
failure: for every behaviour of the OS bind call and of the RNG, a poll
returns either a bound socket or `NotReady` — OS-level bind errors included,
they are logged and retried, and after exhaustion the poll reports
`NotReady`. -/
theorem next_random_binder_never_hard_fails (bind : Nat → Nat → BindOutcome)
    (rng : Nat → Nat) :
    (nextRandomPoll bind rng).1 = .notReady ∨
    ∃ sock, (nextRandomPoll bind rng).1 = .ready sock :=
  bindLoop_no_hard_error bind rng 0 10
